import Mathlib

/-!
Verification development for discord-pin-archiver (src/pin_archiver.py).

Shallow embedding: the SQLite-backed settings store is modelled as an
association list of raw rows (guild_id, channel_id, pin_mode) mirroring the
table `pin_archive_settings`; each SQL statement of the source becomes a pure
function on that list.  The Python layer (`from_row` conversion, the bot
methods, the pins-update event handler, and the duplicate-event guard deque)
is translated function by function.  Exceptions (Python ValueError from the
PinMode conversion) are modelled with Option: an outer `none` means the
operation raised.  External platform effects (fetching pins, unpinning,
sending) are modelled as inputs and as constructors of a result type that
records which action the handler took.
-/

namespace PinArchiver

/-- `class PinMode(enum.Enum)` from pin_archiver.py lines 71-73. -/
inductive PinMode where
  | oldest
  | newest
deriving DecidableEq, Repr

/-- The integer stored in the database for each mode (`oldest = 1`, `newest = 2`). -/
def PinMode.value : PinMode → Int
  | .oldest => 1
  | .newest => 2

/-- Python `PinMode(v)`: succeeds on 1 and 2, raises ValueError (here `none`) otherwise. -/
def PinMode.ofValue (v : Int) : Option PinMode :=
  if v = 1 then some .oldest else if v = 2 then some .newest else none

/-- A raw database row of table `pin_archive_settings`:
`(guild_id, channel_id, pin_mode)`, all SQLite INTEGERs. -/
abbrev Row := Int × Int × Int

/-- The table `pin_archive_settings` (guild_id is the primary key). -/
abbrev Table := List Row

/-- `class PinArchiveLocation(NamedTuple)` from lines 76-79. -/
structure PinArchiveLocation where
  guild_id : Int
  channel_id : Int
  pin_mode : PinMode
deriving DecidableEq, Repr

/-- `PinArchiveLocation.from_row` (lines 81-83); the `PinMode(row[2])` call can raise. -/
def from_row (r : Row) : Option PinArchiveLocation :=
  (PinMode.ofValue r.2.2).map (fun pm => ⟨r.1, r.2.1, pm⟩)

/-- `PinArchiveLocation.to_row` (lines 85-86). -/
def PinArchiveLocation.to_row (l : PinArchiveLocation) : Row :=
  (l.guild_id, l.channel_id, l.pin_mode.value)

/-! ### SQL statements, as functions `Table → Table × List Row`
(the second component is what `RETURNING *` / `SELECT` yields). -/

/-- `SELECT_BY_GUILD_STATEMENT` (lines 41-43): all rows whose guild_id matches. -/
def runSelect (t : Table) (g : Int) : List Row :=
  t.filter (fun r => decide (r.1 = g))

/-- `UPSERT_ARCHIVE_STATEMENT` (lines 45-52): insert `(g, c, m)`, or on a
guild_id conflict overwrite channel_id and pin_mode; returns the resulting row. -/
def runUpsert (t : Table) (r0 : Row) : Table × List Row :=
  if t.any (fun r => decide (r.1 = r0.1)) then
    (t.map (fun r => if r.1 = r0.1 then r0 else r), [r0])
  else
    (t ++ [r0], [r0])

/-- `UPDATE_MODE_STATEMENT` (lines 54-56): set pin_mode on the guild's row,
returning the updated rows. -/
def runUpdateMode (t : Table) (m g : Int) : Table × List Row :=
  (t.map (fun r => if r.1 = g then (r.1, r.2.1, m) else r),
   (t.filter (fun r => decide (r.1 = g))).map (fun r => (r.1, r.2.1, m)))

/-- `UPDATE_CHANNEL_STATEMENT` (lines 58-60): set channel_id on the guild's row,
returning the updated rows. -/
def runUpdateChannel (t : Table) (c g : Int) : Table × List Row :=
  (t.map (fun r => if r.1 = g then (r.1, c, r.2.2) else r),
   (t.filter (fun r => decide (r.1 = g))).map (fun r => (r.1, c, r.2.2)))

/-- SQLite value of the expression `?1 AND pin_mode = ?2` evaluated on a row
whose current pin_mode is `pm`: AND of the truthiness of `c` (nonzero) and of
the comparison `pm = m`, yielding integer 1 or 0. -/
def sqliteAnd (c pm m : Int) : Int :=
  if c ≠ 0 ∧ pm = m then 1 else 0

/-- `UPDATE_CHANNEL_AND_MODE_STATEMENT` (lines 62-64).  The statement text is
`SET channel_id = ? and pin_mode = ? WHERE guild_id = ?`, which SQLite parses
as the single assignment `channel_id = (?1 AND (pin_mode = ?2))` because `=`
binds tighter than `AND`: channel_id receives a 0/1 boolean and pin_mode is
left untouched. -/
def runUpdateChannelAndMode (t : Table) (c m g : Int) : Table × List Row :=
  (t.map (fun r => if r.1 = g then (r.1, sqliteAnd c r.2.2 m, r.2.2) else r),
   (t.filter (fun r => decide (r.1 = g))).map (fun r => (r.1, sqliteAnd c r.2.2 m, r.2.2)))

/-- `DROP_ARCHIVE_STATEMENT` (lines 66-68) as used by `_drop` (lines 114-117):
delete the guild's row; no error when absent. -/
def _drop (t : Table) (g : Int) : Table :=
  t.filter (fun r => decide (r.1 ≠ g))

/-! ### The Python query layer -/

/-- `_query` conversion (line 105): `[PinArchiveLocation.from_row(row) for row in rows]`;
a ValueError on any row aborts the whole call (`none`). -/
def _query : List Row → Option (List PinArchiveLocation)
  | [] => some []
  | r :: rest =>
    match from_row r, _query rest with
    | some loc, some locs => some (loc :: locs)
    | _, _ => none

/-- `locations[0] if locations else None` (lines 344, 348, 368), threaded through
the possible ValueError of `_query`. -/
def first_location (res : Option (List PinArchiveLocation)) : Option (Option PinArchiveLocation) :=
  res.map (fun locations => locations.head?)

/-- `PinArchiverBot.get_archive_channel` (lines 346-348). -/
def get_archive_channel (t : Table) (guild_id : Int) : Option (Option PinArchiveLocation) :=
  first_location (_query (runSelect t guild_id))

/-- `PinArchiverBot.upsert_archive_channel` (lines 339-344), via `_upsert` (lines 108-111). -/
def upsert_archive_channel (t : Table) (guild_id channel_id : Int) (pin_mode : PinMode) :
    Table × Option (Option PinArchiveLocation) :=
  let new_location : PinArchiveLocation := ⟨guild_id, channel_id, pin_mode⟩
  let res := runUpsert t new_location.to_row
  (res.1, first_location (_query res.2))

/-- `PinArchiverBot.update_archive_channel` (lines 350-368).  `channel` is the
optional TextChannel (only its id is used), `pin_mode` the optional mode; with
neither given the store is untouched and `None` is returned (line 366). -/
def update_archive_channel (t : Table) (guild_id : Int)
    (channel : Option Int) (pin_mode : Option PinMode) :
    Table × Option (Option PinArchiveLocation) :=
  match channel, pin_mode with
  | some c, some m =>
    let res := runUpdateChannelAndMode t c m.value guild_id
    (res.1, first_location (_query res.2))
  | some c, none =>
    let res := runUpdateChannel t c guild_id
    (res.1, first_location (_query res.2))
  | none, some m =>
    let res := runUpdateMode t m.value guild_id
    (res.1, first_location (_query res.2))
  | none, none => (t, some none)

/-! ### The duplicate-event guard and the pins-update handler -/

/-- A pinned message; only the id is relevant to the modelled control flow
(the other fields feed the embed rendering, out of scope). -/
structure Message where
  id : Int
deriving DecidableEq, Repr

/-- The guard block of `on_guild_channel_pins_update` (lines 323-329) acting on
`self._guard_stack`.  The deque is represented with its most recently appended
element at the head, so `pop` takes the head and `append` conses.  Returns the
new stack and whether relocation proceeds: on an empty stack the candidate id
is pushed and the handler proceeds; otherwise the stored id is popped, and the
handler aborts exactly when it equals the candidate id. -/
def guardStep (stack : List Int) (pinId : Int) : List Int × Bool :=
  match stack with
  | [] => (pinId :: stack, true)
  | old_pin :: rest => if old_pin = pinId then (rest, false) else (rest, true)

/-- Fold a sequence of candidate ids through the guard, keeping the stack. -/
def guardRunStack (stack : List Int) (cands : List Int) : List Int :=
  cands.foldl (fun st c => (guardStep st c).1) stack

/-- Observable outcome of one `on_guild_channel_pins_update` invocation. -/
inductive HandlerResult where
  /-- No stored settings for the guild (lines 300-301): nothing happens. -/
  | noLocation
  /-- `channel.pins()` raised (lines 306-312): logged, stopped. -/
  | fetchFailed
  /-- Fewer than 49 pins (lines 315-316): nothing happens. -/
  | belowThreshold
  /-- The indexing on line 322 raised IndexError (lines 334-335): logged, stopped. -/
  | indexError
  /-- The duplicate guard aborted relocation (lines 328-329). -/
  | suppressed (pin : Message)
  /-- The candidate pin was unpinned and reposted to the archive channel (lines 331-333). -/
  | relocated (pin : Message) (archive_channel_id : Int)
deriving DecidableEq, Repr

/-- The candidate pin the guard was consulted about, when one was selected. -/
def HandlerResult.candidate : HandlerResult → Option Message
  | .suppressed p => some p
  | .relocated p _ => some p
  | _ => none

/-- `PinArchiverBot.on_guild_channel_pins_update` (lines 294-337).  `fetched` is
the outcome of the external `channel.pins()` call (`none` = it raised); the
guild id comes from `channel.guild.id`.  The handler never writes the table;
returns the new guard stack and the observable outcome, with an outer `none`
when `get_archive_channel` raised ValueError. -/
def on_guild_channel_pins_update (t : Table) (guard : List Int) (guild_id : Int)
    (fetched : Option (List Message)) : Option (List Int × HandlerResult) :=
  match get_archive_channel t guild_id with
  | none => none
  | some none => some (guard, .noLocation)
  | some (some location) =>
    match fetched with
    | none => some (guard, .fetchFailed)
    | some current_pins =>
      if current_pins.length < 49 then
        some (guard, .belowThreshold)
      else
        match (if location.pin_mode = PinMode.oldest then
                 current_pins.getLast? else current_pins.head?) with
        | none => some (guard, .indexError)
        | some pin =>
          let res := guardStep guard pin.id
          if res.2 then some (res.1, .relocated pin location.channel_id)
          else some (res.1, .suppressed pin)

/-- A concrete 49-element pinned-message list, used to instantiate theorems. -/
def pins49 : List Message := (List.range 49).map (fun i => ⟨(i : Int)⟩)

/-! ### Helper lemmas -/

/-- Converting the row of a location back recovers the location. -/
theorem from_row_to_row (l : PinArchiveLocation) : from_row l.to_row = some l := by
  cases l with
  | mk g c m => cases m <;> rfl

/-- Filtering by guild key commutes with a key-preserving row map. -/
theorem filter_map_of_key_preserving (t : Table) (f : Row → Row) (g : Int)
    (hf : ∀ r, (f r).1 = r.1) :
    (t.map f).filter (fun r => decide (r.1 = g))
      = (t.filter (fun r => decide (r.1 = g))).map f := by
  induction t with
  | nil => rfl
  | cons a t ih =>
    simp only [List.map_cons, List.filter_cons, hf a]
    by_cases h : a.1 = g
    · simp [h, ih]
    · simp [h, ih]

/-- `_query` on a list of identical convertible rows succeeds. -/
theorem query_const (rows : List Row) (r0 : Row) (loc : PinArchiveLocation)
    (h0 : from_row r0 = some loc) (hall : ∀ r ∈ rows, r = r0) :
    _query rows = some (List.replicate rows.length loc) := by
  induction rows with
  | nil => rfl
  | cons a rest ih =>
    have ha : a = r0 := hall a (by simp)
    have hrest : ∀ r ∈ rest, r = r0 := fun r hr => hall r (by simp [hr])
    subst ha
    simp [_query, h0, ih hrest, List.replicate_succ]

/-- First location of a nonempty list of identical convertible rows. -/
theorem first_location_const (rows : List Row) (r0 : Row) (loc : PinArchiveLocation)
    (h0 : from_row r0 = some loc) (hall : ∀ r ∈ rows, r = r0) (hne : rows ≠ []) :
    first_location (_query rows) = some (some loc) := by
  rw [query_const rows r0 loc h0 hall]
  cases rows with
  | nil => exact absurd rfl hne
  | cons a rest => simp [first_location, List.replicate_succ]

/-- First location of a single convertible row. -/
theorem first_location_single (r0 : Row) (loc : PinArchiveLocation)
    (h0 : from_row r0 = some loc) :
    first_location (_query [r0]) = some (some loc) := by
  simp [_query, first_location, h0]

/-! ### Claim theorems -/

/-- Claim C1, evaluated at a failing input: with the stored row
(guild 1, channel 10, mode oldest), calling update with channel 5 and mode
newest does NOT produce a row with channel_id 5 and pin_mode newest; the buggy
joint-update statement assigns channel_id the SQLite boolean 0 (value of
`5 AND pin_mode = 2` on the row) and leaves pin_mode at oldest. -/
theorem c1_joint_update_failing_input :
    update_archive_channel [((1 : Int), 10, 1)] 1 (some 5) (some PinMode.newest)
      = ([(1, 0, 1)], some (some ⟨1, 0, PinMode.oldest⟩)) ∧
    ((0 : Int) ≠ 5 ∧ PinMode.oldest ≠ PinMode.newest) := by
  decide

/-- Claim C2: the duplicate-event guard starting empty: a first invocation with
candidate x proceeds (pushing x), an immediately following invocation with the
same candidate x is suppressed, and a third invocation with a different
candidate y proceeds. -/
theorem c2_guard_first_second_third (x y : Int) (_hxy : x ≠ y) :
    guardStep [] x = ([x], true) ∧
    guardStep (guardStep [] x).1 x = ([], false) ∧
    guardStep (guardStep (guardStep [] x).1 x).1 y = ([y], true) := by
  simp [guardStep]

/-- Witness for C2 at x = 1, y = 2. -/
theorem c2_guard_first_second_third_witness :
    guardStep [] 1 = ([1], true) ∧
    guardStep (guardStep [] 1).1 1 = ([], false) ∧
    guardStep (guardStep (guardStep [] 1).1 1).1 2 = ([2], true) :=
  c2_guard_first_second_third 1 2 (by decide)

/-- Claim C7: starting from the empty stack, the duplicate-event guard holds at
most one element after any sequence of guard operations (each operation is a
pop attempt followed by a conditional push). -/
theorem c7_guard_stack_at_most_one (cands : List Int) :
    (guardRunStack [] cands).length ≤ 1 := by
  have key : ∀ (cs : List Int) (s : List Int), s.length ≤ 1 →
      (guardRunStack s cs).length ≤ 1 := by
    intro cs
    induction cs with
    | nil => intro s hs; exact hs
    | cons c cs ih =>
      intro s hs
      have hstep : ((guardStep s c).1).length ≤ 1 := by
        cases s with
        | nil => simp [guardStep]
        | cons a rest =>
          simp only [guardStep]
          simp only [List.length_cons] at hs
          split <;> (simp only []; omega)
      have hfold : guardRunStack s (c :: cs) = guardRunStack (guardStep s c).1 cs := rfl
      rw [hfold]
      exact ih _ hstep
  exact key cands [] (by simp [List.length_nil])

/-- Claim C9: deleting a guild that has no row leaves the table exactly as it
was, and deleting twice has the same effect as deleting once; `_drop` is a
total function, so it never fails. -/
theorem c9_drop_idempotent_no_error (t : Table) (g : Int) :
    ((∀ r ∈ t, r.1 ≠ g) → _drop t g = t) ∧
    _drop (_drop t g) g = _drop t g := by
  constructor
  · intro h
    refine List.filter_eq_self.mpr ?_
    intro r hr
    simpa using h r hr
  · unfold _drop
    rw [List.filter_filter]
    simp

/-- Witness for C9: dropping guild 5 from a table holding only guild 1. -/
theorem c9_drop_idempotent_no_error_witness :
    _drop [((1 : Int), 2, 1)] 5 = [((1 : Int), 2, 1)] ∧
    _drop (_drop [((1 : Int), 2, 1)] 5) 5 = _drop [((1 : Int), 2, 1)] 5 :=
  ⟨(c9_drop_idempotent_no_error [((1 : Int), 2, 1)] 5).1 (by decide),
   (c9_drop_idempotent_no_error [((1 : Int), 2, 1)] 5).2⟩

/-- Claim C10: when the guard pops a stored identifier differing from the
current candidate, the candidate is not pushed (the stack is left empty), and
after invocations with candidates x then y from the empty stack, an immediate
repeat invocation with y proceeds rather than being suppressed. -/
theorem c10_differing_candidate_not_pushed (x y : Int) (hxy : x ≠ y) :
    (guardStep [x] y = ([], true) ∧ y ∉ (guardStep [x] y).1) ∧
    (guardStep [] x = ([x], true) ∧
     guardStep (guardStep [] x).1 y = ([], true) ∧
     guardStep (guardStep (guardStep [] x).1 y).1 y = ([y], true)) := by
  simp [guardStep, hxy]

/-- Witness for C10 at x = 1, y = 2. -/
theorem c10_differing_candidate_not_pushed_witness :
    (guardStep [1] 2 = ([], true) ∧ (2 : Int) ∉ (guardStep [1] 2).1) ∧
    (guardStep [] 1 = ([1], true) ∧
     guardStep (guardStep [] 1).1 2 = ([], true) ∧
     guardStep (guardStep (guardStep [] 1).1 2).1 2 = ([2], true)) :=
  c10_differing_candidate_not_pushed 1 2 (by decide)

/-- Claim C5: upsert followed by get returns exactly the stored tuple
(guild id, channel id, mode), for every starting table. -/
theorem c5_upsert_get_roundtrip (t : Table) (g c : Int) (m : PinMode) :
    get_archive_channel (upsert_archive_channel t g c m).1 g
      = some (some ⟨g, c, m⟩) := by
  have hrow : from_row (g, c, m.value) = some ⟨g, c, m⟩ :=
    from_row_to_row ⟨g, c, m⟩
  unfold get_archive_channel upsert_archive_channel runUpsert PinArchiveLocation.to_row
  dsimp only
  by_cases hany : t.any (fun r => decide (r.1 = g)) = true
  · rw [if_pos hany]
    unfold runSelect
    rw [filter_map_of_key_preserving t _ g (by
      intro r
      by_cases h : r.1 = g
      · simp [h]
      · simp [h])]
    obtain ⟨r0, hr0mem, hr0⟩ := List.any_eq_true.mp hany
    have hne : t.filter (fun r => decide (r.1 = g)) ≠ [] := by
      intro hnil
      have := List.filter_eq_nil_iff.mp hnil r0 hr0mem
      exact this hr0
    refine first_location_const _ (g, c, m.value) ⟨g, c, m⟩ hrow ?_ ?_
    · intro r hr
      obtain ⟨r1, hr1, rfl⟩ := List.mem_map.mp hr
      have hk : r1.1 = g := by simpa using (List.mem_filter.mp hr1).2
      simp [hk]
    · intro hnil
      exact hne (List.map_eq_nil_iff.mp hnil)
  · rw [if_neg hany]
    unfold runSelect
    rw [List.filter_append]
    have hfil : t.filter (fun r => decide (r.1 = g)) = [] := by
      refine List.filter_eq_nil_iff.mpr ?_
      intro a ha
      intro hdec
      exact hany (List.any_eq_true.mpr ⟨a, ha, hdec⟩)
    rw [hfil]
    simpa using first_location_single (g, c, m.value) ⟨g, c, m⟩ hrow

/-- Claim C6: on a table whose only row for guild g is (g, c0, m0): updating
only the channel sets channel_id to c and keeps pin_mode m0; updating only the
mode sets pin_mode to m and keeps channel_id c0 (both as returned and as then
read back by get); updating with neither provided leaves the table untouched
and reports absent. -/
theorem c6_partial_update (t : Table) (g c0 c : Int) (m0 m : PinMode)
    (hrow : t.filter (fun r => decide (r.1 = g)) = [(g, c0, m0.value)]) :
    (update_archive_channel t g (some c) none).2 = some (some ⟨g, c, m0⟩) ∧
    get_archive_channel (update_archive_channel t g (some c) none).1 g
      = some (some ⟨g, c, m0⟩) ∧
    (update_archive_channel t g none (some m)).2 = some (some ⟨g, c0, m⟩) ∧
    get_archive_channel (update_archive_channel t g none (some m)).1 g
      = some (some ⟨g, c0, m⟩) ∧
    update_archive_channel t g none none = (t, some none) := by
  have hkeep_c : ∀ r : Row, ((if r.1 = g then (r.1, c, r.2.2) else r) : Row).1 = r.1 := by
    intro r; by_cases h : r.1 = g <;> simp [h]
  have hkeep_m : ∀ r : Row, ((if r.1 = g then (r.1, r.2.1, m.value) else r) : Row).1 = r.1 := by
    intro r; by_cases h : r.1 = g <;> simp [h]
  refine ⟨?_, ?_, ?_, ?_, rfl⟩
  · show first_location (_query ((t.filter (fun r => decide (r.1 = g))).map
      (fun r => (r.1, c, r.2.2)))) = some (some ⟨g, c, m0⟩)
    rw [hrow]
    simpa using first_location_single (g, c, m0.value) ⟨g, c, m0⟩ (from_row_to_row ⟨g, c, m0⟩)
  · show first_location (_query (runSelect
      (t.map (fun r => if r.1 = g then (r.1, c, r.2.2) else r)) g)) = some (some ⟨g, c, m0⟩)
    unfold runSelect
    rw [filter_map_of_key_preserving t _ g hkeep_c, hrow]
    simpa using first_location_single (g, c, m0.value) ⟨g, c, m0⟩ (from_row_to_row ⟨g, c, m0⟩)
  · show first_location (_query ((t.filter (fun r => decide (r.1 = g))).map
      (fun r => (r.1, r.2.1, m.value)))) = some (some ⟨g, c0, m⟩)
    rw [hrow]
    simpa using first_location_single (g, c0, m.value) ⟨g, c0, m⟩ (from_row_to_row ⟨g, c0, m⟩)
  · show first_location (_query (runSelect
      (t.map (fun r => if r.1 = g then (r.1, r.2.1, m.value) else r)) g)) = some (some ⟨g, c0, m⟩)
    unfold runSelect
    rw [filter_map_of_key_preserving t _ g hkeep_m, hrow]
    simpa using first_location_single (g, c0, m.value) ⟨g, c0, m⟩ (from_row_to_row ⟨g, c0, m⟩)

/-- Witness for C6 on the table [(1, 10, oldest)], updating with channel 5
or with mode newest. -/
theorem c6_partial_update_witness :
    (update_archive_channel [((1 : Int), 10, 1)] 1 (some 5) none).2
      = some (some ⟨1, 5, PinMode.oldest⟩) ∧
    get_archive_channel (update_archive_channel [((1 : Int), 10, 1)] 1 (some 5) none).1 1
      = some (some ⟨1, 5, PinMode.oldest⟩) ∧
    (update_archive_channel [((1 : Int), 10, 1)] 1 none (some PinMode.newest)).2
      = some (some ⟨1, 10, PinMode.newest⟩) ∧
    get_archive_channel
        (update_archive_channel [((1 : Int), 10, 1)] 1 none (some PinMode.newest)).1 1
      = some (some ⟨1, 10, PinMode.newest⟩) ∧
    update_archive_channel [((1 : Int), 10, 1)] 1 none none
      = ([((1 : Int), 10, 1)], some none) :=
  c6_partial_update [((1 : Int), 10, 1)] 1 10 5 PinMode.oldest PinMode.newest (by decide)

/-- Claim C3: whenever a location is stored for the guild and the fetched
pinned list has at least 49 elements, the handler selects the last element of
the list as candidate when the stored mode is oldest and the first element
when it is newest. -/
theorem c3_candidate_selection (t : Table) (guard : List Int) (g : Int)
    (loc : PinArchiveLocation) (pins : List Message)
    (hloc : get_archive_channel t g = some (some loc))
    (hlen : 49 ≤ pins.length) :
    (on_guild_channel_pins_update t guard g (some pins)).map
        (fun p => HandlerResult.candidate p.2)
      = some (if loc.pin_mode = PinMode.oldest then pins.getLast? else pins.head?) := by
  have hnl : ¬ pins.length < 49 := by omega
  unfold on_guild_channel_pins_update
  rw [hloc]
  dsimp only
  rw [if_neg hnl]
  rcases hs : (if loc.pin_mode = PinMode.oldest then pins.getLast? else pins.head?)
    with _ | pin
  · exfalso
    have hne : pins ≠ [] := by
      intro h; subst h; simp at hlen
    by_cases hm : loc.pin_mode = PinMode.oldest
    · rw [if_pos hm] at hs
      exact hne (List.getLast?_eq_none_iff.mp hs)
    · rw [if_neg hm] at hs
      exact hne (List.head?_eq_none_iff.mp hs)
  · dsimp only
    cases hb : (guardStep guard pin.id).2 <;> simp [hb, HandlerResult.candidate]

/-- Witness for C3 on the table [(1, 2, oldest)] with a 49-element pin list. -/
theorem c3_candidate_selection_witness :
    get_archive_channel [((1 : Int), 2, 1)] 1 = some (some ⟨1, 2, PinMode.oldest⟩) ∧
    49 ≤ pins49.length ∧
    (on_guild_channel_pins_update [((1 : Int), 2, 1)] [] 1 (some pins49)).map
        (fun p => HandlerResult.candidate p.2)
      = some (if (⟨1, 2, PinMode.oldest⟩ : PinArchiveLocation).pin_mode = PinMode.oldest
              then pins49.getLast? else pins49.head?) :=
  ⟨by decide, by decide,
   c3_candidate_selection [((1 : Int), 2, 1)] [] 1 ⟨1, 2, PinMode.oldest⟩ pins49
     (by decide) (by decide)⟩

/-- Claim C4: whenever a location is stored for the guild but the fetched
pinned list has fewer than 49 elements, the handler stops at the threshold
check: no candidate selection, no guard interaction, guard stack unchanged,
no unpin, no send — for every stored mode. -/
theorem c4_below_threshold (t : Table) (guard : List Int) (g : Int)
    (loc : PinArchiveLocation) (pins : List Message)
    (hloc : get_archive_channel t g = some (some loc))
    (hlen : pins.length < 49) :
    on_guild_channel_pins_update t guard g (some pins)
      = some (guard, HandlerResult.belowThreshold) := by
  unfold on_guild_channel_pins_update
  rw [hloc]
  dsimp only
  rw [if_pos hlen]

/-- Witness for C4 on the table [(1, 2, oldest)] with an empty pin list. -/
theorem c4_below_threshold_witness :
    on_guild_channel_pins_update [((1 : Int), 2, 1)] [9] 1 (some [])
      = some ([9], HandlerResult.belowThreshold) :=
  c4_below_threshold [((1 : Int), 2, 1)] [9] 1 ⟨1, 2, PinMode.oldest⟩ []
    (by decide) (by decide)

/-- Claim C8: when the table holds no row for the guild, get reports absent
and the pins-update handler does nothing at all — the outcome is the same for
every fetch outcome (so the pin list is never consulted), the guard stack is
returned unchanged, and the handler performs no store write by construction. -/
theorem c8_no_settings_noop (t : Table) (guard : List Int) (g : Int)
    (fetched : Option (List Message))
    (habs : ∀ r ∈ t, r.1 ≠ g) :
    get_archive_channel t g = some none ∧
    on_guild_channel_pins_update t guard g fetched
      = some (guard, HandlerResult.noLocation) := by
  have hfil : t.filter (fun r => decide (r.1 = g)) = [] :=
    List.filter_eq_nil_iff.mpr (fun a ha => by simpa using habs a ha)
  have hget : get_archive_channel t g = some none := by
    unfold get_archive_channel runSelect
    rw [hfil]
    rfl
  refine ⟨hget, ?_⟩
  unfold on_guild_channel_pins_update
  rw [hget]

/-- Witness for C8: guild 1 has no row in the table [(2, 3, oldest)]. -/
theorem c8_no_settings_noop_witness :
    get_archive_channel [((2 : Int), 3, 1)] 1 = some none ∧
    on_guild_channel_pins_update [((2 : Int), 3, 1)] [7] 1 none
      = some ([7], HandlerResult.noLocation) :=
  c8_no_settings_noop [((2 : Int), 3, 1)] [7] 1 none (by decide)

end PinArchiver
